import Mathlib

/-!
Shallow embedding of the data pipeline of the dashboard-demo repository
(src/app_complete.py and src/premium_pdf_generator.py): cell coercions,
the revenue and cost extractions of load_data, the left join and derived
metrics, the branch and period aggregations, and the volatility risk rule.
Numeric cells are modelled as exact rationals; pandas NaN is modelled with
Option or the dedicated Cell.na constructor.
-/

namespace Dashboard

/-- A spreadsheet cell as seen through pandas: missing (NaN), textual, or
numeric.  Numeric cells are modelled as exact rationals.  pandas DataFrames
are rectangular and cells missing inside the rectangle read as NaN, so row
access beyond the stored cells is modelled as `Cell.na`. -/
inductive Cell where
  | na : Cell
  | str : String → Cell
  | num : ℚ → Cell
deriving DecidableEq

/-- pandas pd.isna on a single cell. -/
def Cell.isna : Cell → Bool
  | .na => true
  | _ => false

/-- Numeric value of a run of decimal digits. -/
def digitsToNat (l : List Char) : Nat :=
  l.foldl (fun a c => a * 10 + (c.toNat - 48)) 0

/-- Helper for Python int on strings: after the optional sign, the remaining
characters must be a nonempty run of decimal digits. -/
def pyIntDigits (sign : Int) (ds : List Char) : Option Int :=
  if ds.isEmpty then none
  else if ds.all Char.isDigit then some (sign * (digitsToNat ds : Int))
  else none

/-- Python int(s) on a string: strip surrounding whitespace, allow an optional
sign, then decimal digits only; any other text raises ValueError (`none`). -/
def pyIntOfString (s : String) : Option Int :=
  match s.trim.toList with
  | '-' :: ds => pyIntDigits (-1) ds
  | '+' :: ds => pyIntDigits 1 ds
  | ds => pyIntDigits 1 ds

/-- Python int on a number truncates toward zero. -/
def ratTrunc (q : ℚ) : Int := q.num.tdiv (q.den : Int)

/-- Python int(...) applied to a cell, as used on the period cells in
load_data (app_complete.py lines 133 and 159).  A NaN cell raises; both call
sites test pd.isna first.  On failure the offending text is the error. -/
def pyInt : Cell → Except String Int
  | .na => .error "nan"
  | .num q => .ok (ratTrunc q)
  | .str s =>
    match pyIntOfString s with
    | some n => .ok n
    | none => .error s

/-- Fractional value of a digit run placed after the decimal point. -/
def fracOfDigits (l : List Char) : ℚ := (digitsToNat l : ℚ) / (10 : ℚ) ^ l.length

/-- Unsigned decimal literal: digits, optionally a point and more digits; at
least one digit overall. -/
def parseUnsigned (ds : List Char) : Option ℚ :=
  match ds.span Char.isDigit with
  | (ip, []) => if ip.isEmpty then none else some (digitsToNat ip)
  | (ip, '.' :: fp) =>
    if fp.all Char.isDigit then
      if ip.isEmpty && fp.isEmpty then none
      else some ((digitsToNat ip : ℚ) + fracOfDigits fp)
    else none
  | _ => none

/-- pandas pd.to_numeric with coercion (app_complete.py lines 138 and 163):
numbers pass through, parseable decimal strings are parsed, everything else
(including NaN) coerces to NaN (`none`).  Scientific notation is not
modelled; no claim depends on it. -/
def toNumeric : Cell → Option ℚ
  | .na => none
  | .num q => some q
  | .str s =>
    match s.trim.toList with
    | '-' :: ds => (parseUnsigned ds).map (fun q => -q)
    | '+' :: ds => parseUnsigned ds
    | ds => parseUnsigned ds

/-- app_complete.py lines 126 and 132: str(row[0]).strip().upper() compared
with the TOTAL marker.  str of NaN is the text nan and str of a number never
equals TOTAL after trimming and upper-casing, so only textual cells match. -/
def descIsTotal : Cell → Bool
  | .str s => s.trim.toUpper == "TOTAL"
  | _ => false

/-- Floor of a rational, computably. -/
def ratFloor (q : ℚ) : Int := q.num.fdiv (q.den : Int)

/-- Round to the nearest integer, ties to even: the rounding used by
numpy/pandas round. -/
def roundHalfEven (q : ℚ) : Int :=
  let f : Int := ratFloor q
  if q - f < 1/2 then f
  else if (1 : ℚ)/2 < q - f then f + 1
  else if f % 2 = 0 then f else f + 1

/-- pandas .round(1), modelled exactly over the rationals. -/
def round1 (q : ℚ) : ℚ := (roundHalfEven (q * 10) : ℚ) / 10

/-- Code-point lexicographic strict order on character lists, as Python
compares strings. -/
def charsLt : List Char → List Char → Bool
  | [], [] => false
  | [], _ :: _ => true
  | _ :: _, [] => false
  | a :: as, b :: bs =>
    if a.toNat < b.toNat then true
    else if b.toNat < a.toNat then false
    else charsLt as bs

/-- Non-strict code-point lexicographic order on strings. -/
def strLe (a b : String) : Bool := !(charsLt b.toList a.toList)

/-- Modelled from the spec: period normalization by extracting the first
maximal run of digits of the cell textual form (spec section 4.3).  The code
has no such extraction; this definition exists only to compare the spec with
the code. -/
def specFirstDigitRun (s : String) : Option Nat :=
  let ds := (s.toList.dropWhile (fun c => !c.isDigit)).takeWhile Char.isDigit
  if ds.isEmpty then none else some (digitsToNat ds)

/-- One row of the revenue-side extraction of load_data (app_complete.py
lines 141 to 146): the dict appended to data_list.  Cost is supplied later by
the merge. -/
structure RevRecord where
  period : String
  dateRange : Cell
  branch : String
  revenue : ℚ
deriving DecidableEq

/-- app_complete.py lines 136 to 146: for each configured branch at column
3 + index, coerce the cell with pd.to_numeric and keep it only when the
result is a number strictly greater than zero. -/
def branchRevenues (branches : List String) (row : List Cell) (period : String)
    (dateRange : Cell) : List RevRecord :=
  branches.enum.filterMap (fun bi =>
    match toNumeric (row.getD (3 + bi.1) Cell.na) with
    | some r => if 0 < r then some ⟨period, dateRange, bi.2, r⟩ else none
    | none => none)

/-- app_complete.py lines 122 to 146, one iteration of the row loop: rows with
index below 4 are skipped; rows whose period cell (column 1) is NaN or the
empty string are skipped; on a TOTAL marker row the period is str(int(cell)),
which can raise (error); column 2 supplies the date range with the fallback
text of line 134. -/
def extractRevenueRow (branches : List String) (idx : Nat) (row : List Cell) :
    Except String (List RevRecord) :=
  if idx < 4 then .ok []
  else if (row.getD 1 Cell.na).isna || row.getD 1 Cell.na == Cell.str "" then
    .ok []
  else if descIsTotal (row.getD 0 Cell.na) then
    match pyInt (row.getD 1 Cell.na) with
    | .error e => .error e
    | .ok p =>
      .ok (branchRevenues branches row (toString p)
        (if (row.getD 2 Cell.na).isna then Cell.str ("Period " ++ toString p)
         else row.getD 2 Cell.na))
  else .ok []

/-- Row loop of the revenue extraction, carrying the running row index. -/
def extractRevenueAux (branches : List String) :
    Nat → List (List Cell) → Except String (List RevRecord)
  | _, [] => .ok []
  | idx, row :: rest =>
    match extractRevenueRow branches idx row with
    | .error e => .error e
    | .ok rs =>
      match extractRevenueAux branches (idx + 1) rest with
      | .error e => .error e
      | .ok rest' => .ok (rs ++ rest')

/-- Revenue-side extraction of load_data over the whole cell matrix. -/
def extractRevenue (branches : List String) (m : List (List Cell)) :
    Except String (List RevRecord) :=
  extractRevenueAux branches 0 m

/-- The costs workbook after pd.read_excel with header 1: named columns and
the data rows below the header, each row aligned with the column list. -/
structure CostsTable where
  columns : List String
  rows : List (List Cell)
deriving DecidableEq

/-- One row of the cost-side extraction (app_complete.py lines 165 to 169). -/
structure CostRecord where
  period : String
  branch : String
  cost : ℚ
deriving DecidableEq

/-- Index of the first column with the given name. -/
def colIdx : List String → String → Option Nat
  | [], _ => none
  | c :: cs, name => if c == name then some 0 else (colIdx cs name).map (· + 1)

/-- app_complete.py lines 153 to 169, one iteration: row access by the Period
column name raises KeyError when the column is absent; a NaN period skips the
row; otherwise the period is str(int(cell)), which can raise; each configured
branch contributes a cost row only when the branch is among the columns and
pd.to_numeric of its cell is not NaN. -/
def extractCostRow (branches : List String) (cols : List String)
    (row : List Cell) : Except String (List CostRecord) :=
  match colIdx cols "Period" with
  | none => .error "KeyError: Period"
  | some pIdx =>
    if (row.getD pIdx Cell.na).isna then .ok []
    else
      match pyInt (row.getD pIdx Cell.na) with
      | .error e => .error e
      | .ok p =>
        .ok (branches.filterMap (fun b =>
          match colIdx cols b with
          | none => none
          | some j =>
            match toNumeric (row.getD j Cell.na) with
            | some c => some ⟨toString p, b, c⟩
            | none => none))

/-- Row loop of the cost-side extraction. -/
def extractCostsAux (branches : List String) (cols : List String) :
    List (List Cell) → Except String (List CostRecord)
  | [] => .ok []
  | row :: rest =>
    match extractCostRow branches cols row with
    | .error e => .error e
    | .ok rs =>
      match extractCostsAux branches cols rest with
      | .error e => .error e
      | .ok rest' => .ok (rs ++ rest')

/-- Cost-side extraction of load_data over the whole costs table. -/
def extractCosts (branches : List String) (t : CostsTable) :
    Except String (List CostRecord) :=
  extractCostsAux branches t.columns t.rows

/-- One row of the final fact table of load_data, with the derived columns of
app_complete.py lines 174 to 180. -/
structure FactRecord where
  period : String
  dateRange : Cell
  branch : String
  revenue : ℚ
  cost : ℚ
  grossProfit : ℚ
  marginPct : ℚ
deriving DecidableEq

/-- Join predicate of the merge on Period and Branch. -/
def matchesRev (r : RevRecord) (c : CostRecord) : Bool :=
  c.period == r.period && c.branch == r.branch

/-- pandas left merge of line 173: left rows in order; each left row is
paired once with every matching right row in right order, or once with NaN
cost when no right row matches. -/
def mergeCosts (revs : List RevRecord) (costs : List CostRecord) :
    List (RevRecord × Option ℚ) :=
  revs.flatMap (fun r =>
    match costs.filter (matchesRev r) with
    | [] => [(r, none)]
    | ms => ms.map (fun c => (r, some c.cost)))

/-- Lines 174 to 178: fill missing cost with 0, derive Gross Profit and
Margin %.  Rational division by zero is 0, which coincides with the
fillna(0) applied to Margin % (for a zero revenue the float quotient would
be NaN and line 178 maps it to 0); records reaching this point always have
positive revenue anyway. -/
def mkFact (r : RevRecord) (c : ℚ) : FactRecord :=
  { period := r.period
    dateRange := r.dateRange
    branch := r.branch
    revenue := r.revenue
    cost := c
    grossProfit := r.revenue - c
    marginPct := round1 ((r.revenue - c) / r.revenue * 100) }

/-- Fact reconciliation: merge then derive, lines 173 to 178. -/
def reconcile (revs : List RevRecord) (costs : List CostRecord) :
    List FactRecord :=
  (mergeCosts revs costs).map (fun rc => mkFact rc.1 (rc.2.getD 0))

/-- Stable insertion into a sorted list: the new element goes before the
first element it compares le with, so equal keys keep their original order
(pandas sort_values on several columns is stable). -/
def insertLE {α : Type} (le : α → α → Bool) (a : α) : List α → List α
  | [] => [a]
  | b :: l => if le a b then a :: b :: l else b :: insertLE le a l

/-- Stable insertion sort. -/
def insortLE {α : Type} (le : α → α → Bool) : List α → List α
  | [] => []
  | a :: l => insertLE le a (insortLE le l)

/-- Sort key of line 181: Period as int ascending, then Branch ascending.
Every period string produced upstream is the decimal form of an int, so the
astype(int) of line 180 always succeeds on it. -/
def factLE (a b : FactRecord) : Bool :=
  let pa := (pyIntOfString a.period).getD 0
  let pb := (pyIntOfString b.period).getD 0
  if pa == pb then strLe a.branch b.branch else decide (pa < pb)

/-- Line 181: the final sort of the fact table. -/
def sortFacts (l : List FactRecord) : List FactRecord := insortLE factLE l

/-- load_data (app_complete.py lines 112 to 183) restricted to its data
logic: extract revenue rows, extract cost rows, left join, derive metrics,
sort.  An uncaught Python exception is the error case. -/
def load_data (branches : List String) (revMatrix : List (List Cell))
    (costs : CostsTable) : Except String (List FactRecord) :=
  match extractRevenue branches revMatrix with
  | .error e => .error e
  | .ok revs =>
    match extractCosts branches costs with
    | .error e => .error e
    | .ok cs => .ok (sortFacts (reconcile revs cs))

/-- Column names of the data frame returned by load_data, in creation order:
the dict keys of lines 141 to 146, the Cost column added by the merge of
line 173, and the derived columns of lines 176 to 180.  No Hours and no
RevPerHour column is ever created. -/
def factTableColumns : List String :=
  ["Period", "Date Range", "Branch", "Revenue", "Cost", "Gross Profit",
   "Margin %", "Period_Int"]

/-- Distinct values in first-occurrence order, with an accumulator of values
already seen. -/
def uniqueAux : List String → List String → List String
  | _, [] => []
  | seen, a :: l =>
    if a ∈ seen then uniqueAux seen l else a :: uniqueAux (a :: seen) l

/-- pandas groupby sorts the group keys ascending; Python string order is
code-point lexicographic. -/
def sortedKeys (l : List String) : List String :=
  insortLE strLe (uniqueAux [] l)

/-- One row of the branch aggregation of app_complete.py lines 404 to 409. -/
structure BranchAggregate where
  branch : String
  revenue : ℚ
  cost : ℚ
  grossProfit : ℚ
  marginPct : ℚ
deriving DecidableEq

/-- app_complete.py lines 404 to 409: group the fact table by Branch, sum
Revenue, Cost and Gross Profit, then set Margin % to the rounded ratio of the
summed Gross Profit to the summed Revenue.  The same formula appears in
premium_pdf_generator.py line 571. -/
def branch_totals (facts : List FactRecord) : List BranchAggregate :=
  (sortedKeys (facts.map (·.branch))).map (fun b =>
    let rows := facts.filter (fun r => r.branch == b)
    let rev := (rows.map (·.revenue)).sum
    let c := (rows.map (·.cost)).sum
    let gp := (rows.map (·.grossProfit)).sum
    { branch := b, revenue := rev, cost := c, grossProfit := gp,
      marginPct := round1 (gp / rev * 100) })

/-- Arithmetic mean; the mean of the empty list is the rational 0/0 = 0. -/
def meanQ (xs : List ℚ) : ℚ := xs.sum / (xs.length : ℚ)

/-- The Margin % values of one branch across the fact table, in table
order. -/
def margins (facts : List FactRecord) (b : String) : List ℚ :=
  (facts.filter (fun r => r.branch == b)).map (·.marginPct)

/-- premium_pdf_generator.py lines 339 to 343 (also 730 to 734 and 811 to
815): the branch aggregation used by the executive summary, the risk rules
and the recommendations takes the plain mean of the per-period Margin %
values of the branch. -/
def branchMeanMargin (facts : List FactRecord) (b : String) : ℚ :=
  meanQ (margins facts b)

/-- One row of the period aggregation of premium_pdf_generator.py lines 458
to 465.  growthPct none stands for pandas NaN. -/
structure PeriodAggregate where
  period : String
  revenue : ℚ
  cost : ℚ
  grossProfit : ℚ
  marginPct : ℚ
  growthPct : Option ℚ
deriving DecidableEq

/-- pct_change of line 465 down the already-ordered group rows, carrying the
previous revenue total.  The first row gets NaN.  In pandas a zero previous
total would give an infinite value, not NaN; this embedding collapses both
non-finite outcomes to none, and a group total of zero cannot arise from a
fact table whose records all have positive revenue. -/
def addGrowth : Option ℚ → List (String × ℚ × ℚ × ℚ) → List PeriodAggregate
  | _, [] => []
  | prev, (p, r, c, g) :: rest =>
    let growth : Option ℚ :=
      match prev with
      | none => none
      | some pr => if pr == 0 then none else some ((r - pr) / pr * 100)
    { period := p, revenue := r, cost := c, grossProfit := g,
      marginPct := round1 (g / r * 100), growthPct := growth }
      :: addGrowth (some r) rest

/-- premium_pdf_generator.py lines 458 to 465: groupby on the Period column,
whose values are strings, so the groups are ordered by string comparison;
sums of Revenue, Cost and Gross Profit; Margin % as the rounded ratio of the
sums; Growth % by pct_change down that string-ordered list. -/
def period_summary (facts : List FactRecord) : List PeriodAggregate :=
  addGrowth none ((sortedKeys (facts.map (·.period))).map (fun p =>
    let rows := facts.filter (fun r => r.period == p)
    (p, (rows.map (·.revenue)).sum, (rows.map (·.cost)).sum,
     (rows.map (·.grossProfit)).sum)))

/-- Population variance: squared deviations from the mean divided by the
count. -/
def popVar (xs : List ℚ) : ℚ :=
  (xs.map (fun x => (x - meanQ xs) ^ 2)).sum / (xs.length : ℚ)

/-- pandas Series.std() uses ddof 1: the sample variance divides by count
minus one and a singleton or empty list gives NaN (`none`). -/
def sampleVarOpt (xs : List ℚ) : Option ℚ :=
  if 2 ≤ xs.length then
    some ((xs.map (fun x => (x - meanQ xs) ^ 2)).sum / ((xs.length - 1 : ℕ) : ℚ))
  else none

/-- premium_pdf_generator.py lines 756 to 757: a branch is flagged volatile
when the pandas standard deviation (ddof 1) of its Margin % values exceeds 5.
For nonnegative variance, std greater than 5 is equivalent to variance
greater than 25, which is how the comparison is phrased over the rationals;
a NaN deviation (fewer than two values) compares False in Python. -/
def volatilityFlag (facts : List FactRecord) (b : String) : Bool :=
  match sampleVarOpt (margins facts b) with
  | some v => decide (25 < v)
  | none => false

/-- Modelled from the spec: the volatility rule as the spec states it, with
the population standard deviation (divisor n) of the per-period Margin %
values exceeding 5 points, phrased as population variance greater than 25.
Exists only to compare the spec with the code. -/
def specVolatilityFlag (facts : List FactRecord) (b : String) : Bool :=
  decide (25 < popVar (margins facts b))

/-- A file as the source locator sees it: a name and a modification time. -/
structure FileInfo where
  name : String
  mtime : Int
deriving DecidableEq

/-- One candidate directory of get_latest_files: whether the path exists, and
the glob results for the revenue and the costs pattern inside it.  Glob
itself is kept abstract: only the per-directory match lists matter to the
locator logic. -/
structure SearchDir where
  present : Bool
  revMatches : List FileInfo
  costMatches : List FileInfo
deriving DecidableEq

/-- One step of Python max with an mtime key: a later element replaces the
current best only when its key is strictly greater. -/
def maxStep (acc : Option FileInfo) (f : FileInfo) : Option FileInfo :=
  match acc with
  | none => some f
  | some g => if g.mtime < f.mtime then some f else some g

/-- Python max with an mtime key: the first element of maximal mtime. -/
def maxByMtime (l : List FileInfo) : Option FileInfo :=
  l.foldl maxStep none

/-- Directory loop of get_latest_files (app_complete.py lines 85 to 98),
carrying the two file accumulators: a directory that exists and has matches
overwrites the accumulator for that pattern; the loop stops early only when
both files have been found. -/
def locateAux : List SearchDir → Option FileInfo → Option FileInfo →
    Option FileInfo × Option FileInfo
  | [], r, c => (r, c)
  | d :: rest, r, c =>
    if d.present then
      let r' := match maxByMtime d.revMatches with
        | some f => some f
        | none => r
      let c' := match maxByMtime d.costMatches with
        | some f => some f
        | none => c
      if r'.isSome && c'.isSome then (r', c') else locateAux rest r' c'
    else locateAux rest r c

/-- get_latest_files (app_complete.py lines 73 to 108): the pair of located
files; a none component means the corresponding st.error / st.stop branch. -/
def get_latest_files (dirs : List SearchDir) :
    Option FileInfo × Option FileInfo :=
  locateAux dirs none none

/-- Modelled from the spec: the locator as section 4.1 describes it, for the
revenue pattern: the first present directory holding at least one match
answers with its latest file.  Exists only to compare the spec with the
code. -/
def specFirstDirRev : List SearchDir → Option FileInfo
  | [] => none
  | d :: rest =>
    if d.present && !d.revMatches.isEmpty then maxByMtime d.revMatches
    else specFirstDirRev rest

/-! Concrete instances used by the counterexamples and witnesses below. -/

/-- A revenue matrix whose only marker row (index 4) carries the free-text
period label of the spec example. -/
def c1Matrix : List (List Cell) :=
  [[], [], [], [],
   [Cell.str "TOTAL", Cell.str "Period 7 (Apr–Jun)", Cell.na, Cell.num 100]]

/-- An empty costs table with the expected header. -/
def c1Costs : CostsTable := ⟨["Period", "North"], []⟩

/-- A minimal revenue matrix: four discarded heading rows, then one TOTAL
row for period 1 with revenue 100 in the single branch column. -/
def demoMatrix : List (List Cell) :=
  [[], [], [], [],
   [Cell.str "TOTAL", Cell.num 1, Cell.na, Cell.num 100]]

/-- A costs table giving period 1 of branch North a cost of 40. -/
def demoCosts : CostsTable :=
  ⟨["Period", "North", "Total"], [[Cell.num 1, Cell.num 40, Cell.num 40]]⟩

/-- The single fact record load_data produces from the demo inputs. -/
def demoFact : FactRecord :=
  ⟨"1", Cell.str "Period 1", "North", 100, 40, 60, 60⟩

/-- One branch over two periods with margins 10 and 100: the mean of the
margins is 55 while the ratio of the summed profit to the summed revenue is
200/11 of a percent, rounded 18.2. -/
def c3facts : List FactRecord :=
  [⟨"1", Cell.na, "A", 100, 90, 10, 10⟩,
   ⟨"2", Cell.na, "A", 10, 0, 10, 100⟩]

/-- The aggregate branch_totals produces from c3facts. -/
def c3agg : BranchAggregate := ⟨"A", 110, 90, 20, 91/5⟩

/-- Revenue file in the first search directory, latest there. -/
def c4a : FileInfo := ⟨"a", 10⟩

/-- Revenue file in the second search directory, older than c4a. -/
def c4b : FileInfo := ⟨"b", 0⟩

/-- Costs file, found only in the second search directory. -/
def c4c : FileInfo := ⟨"c", 5⟩

/-- Two directories: the first holds only a revenue match, the second holds
both a revenue match and the only costs match. -/
def c4dirs : List SearchDir := [⟨true, [c4a], []⟩, ⟨true, [c4b], [c4c]⟩]

/-- A single directory holding matches for both patterns. -/
def c4dBoth : SearchDir := ⟨true, [c4a], [c4c]⟩

/-- A costs table whose columns hold the branch North but not the branch
South. -/
def c5table : CostsTable :=
  ⟨["Period", "North", "Total"], [[Cell.num 1, Cell.num 5, Cell.num 5]]⟩

/-- The single cost record extracted from c5table. -/
def c5rec : CostRecord := ⟨"1", "North", 5⟩

/-- One revenue-side row for period 1, branch North. -/
def c6revs : List RevRecord := [⟨"1", Cell.na, "North", 100⟩]

/-- Two cost rows with the same (Period, Branch) pair. -/
def c6costs : List CostRecord := [⟨"1", "North", 10⟩, ⟨"1", "North", 20⟩]

/-- Two cost rows with distinct (Period, Branch) pairs. -/
def c6wcosts : List CostRecord := [⟨"1", "North", 10⟩, ⟨"2", "North", 20⟩]

/-- A costs table carrying a negative cost cell for period 1, branch
North. -/
def c7Costs : CostsTable :=
  ⟨["Period", "North", "Total"], [[Cell.num 1, Cell.num (-5), Cell.num (-5)]]⟩

/-- The fact record load_data produces from demoMatrix and c7Costs: the
negative cost is carried into the table unchanged. -/
def c7rec : FactRecord := ⟨"1", Cell.str "Period 1", "North", 100, -5, 105, 105⟩

/-- A fact table with periods 2 and 10: in string order the period 10 group
comes first, although in integer order period 2 is first. -/
def c8facts : List FactRecord :=
  [⟨"2", Cell.na, "North", 200, 0, 200, 100⟩,
   ⟨"10", Cell.na, "North", 100, 0, 100, 100⟩]

/-- One branch with margins 0 and 8: the population variance is 16 (standard
deviation 4, below the threshold 5) while the sample variance is 32
(standard deviation above 5). -/
def c9facts : List FactRecord :=
  [⟨"1", Cell.na, "North", 100, 100, 0, 0⟩,
   ⟨"2", Cell.na, "North", 100, 92, 8, 8⟩]

/-- A one-row matrix whose row 0 is a well-formed TOTAL row with a valid
period and positive revenue. -/
def c10M1 : List (List Cell) :=
  [[Cell.str "TOTAL", Cell.num 1, Cell.na, Cell.num 100]]

/-- The empty matrix: it agrees with c10M1 from row 4 on. -/
def c10M2 : List (List Cell) := []

/-! Helper lemmas shared by several claims. -/

theorem mem_insertLE {α : Type} (le : α → α → Bool) (x a : α) :
    ∀ l : List α, a ∈ insertLE le x l ↔ a = x ∨ a ∈ l
  | [] => by simp [insertLE]
  | b :: l => by
    by_cases h : le x b
    · simp [insertLE, h]
    · simp only [insertLE, h, Bool.false_eq_true, if_false, List.mem_cons,
        mem_insertLE le x a l]
      tauto

theorem mem_insortLE {α : Type} (le : α → α → Bool) (a : α) :
    ∀ l : List α, a ∈ insortLE le l ↔ a ∈ l
  | [] => Iff.rfl
  | b :: l => by
    simp [insortLE, mem_insertLE, mem_insortLE le a l]

theorem mem_sortFacts (r : FactRecord) (l : List FactRecord) :
    r ∈ sortFacts l ↔ r ∈ l :=
  mem_insortLE factLE r l

theorem mergeCosts_fst_mem (revs : List RevRecord) (costs : List CostRecord)
    (x : RevRecord × Option ℚ) (hx : x ∈ mergeCosts revs costs) :
    x.1 ∈ revs := by
  unfold mergeCosts at hx
  obtain ⟨r, hr, hmem⟩ := List.mem_flatMap.mp hx
  revert hmem
  split
  · intro hmem
    simp only [List.mem_singleton] at hmem
    subst hmem
    exact hr
  · intro hmem
    obtain ⟨c, -, rfl⟩ := List.mem_map.mp hmem
    exact hr

theorem mem_reconcile (revs : List RevRecord) (costs : List CostRecord)
    (r : FactRecord) (h : r ∈ reconcile revs costs) :
    ∃ x ∈ mergeCosts revs costs, r = mkFact x.1 (x.2.getD 0) := by
  obtain ⟨x, hx, hr⟩ := List.mem_map.mp h
  exact ⟨x, hx, hr.symm⟩

theorem branchRevenues_pos (branches : List String) (row : List Cell)
    (period : String) (dr : Cell) (r : RevRecord)
    (h : r ∈ branchRevenues branches row period dr) : 0 < r.revenue := by
  obtain ⟨bi, -, hbi⟩ := List.mem_filterMap.mp h
  revert hbi
  split
  · split
    · intro hbi
      cases hbi
      assumption
    · intro hbi
      cases hbi
  · intro hbi
    cases hbi

theorem extractRevenueRow_pos (branches : List String) (idx : Nat)
    (row : List Cell) (rs : List RevRecord)
    (h : extractRevenueRow branches idx row = .ok rs) :
    ∀ r ∈ rs, 0 < r.revenue := by
  unfold extractRevenueRow at h
  split at h
  · cases h
    intro r hr
    cases hr
  · split at h
    · cases h
      intro r hr
      cases hr
    · split at h
      · split at h
        · cases h
        · cases h
          intro r hr
          exact branchRevenues_pos _ _ _ _ r hr
      · cases h
        intro r hr
        cases hr

theorem extractRevenueAux_pos (branches : List String) :
    ∀ (m : List (List Cell)) (idx : Nat) (revs : List RevRecord),
      extractRevenueAux branches idx m = .ok revs →
      ∀ r ∈ revs, 0 < r.revenue
  | [], idx, revs, h => by
    cases h
    intro r hr
    cases hr
  | row :: rest, idx, revs, h => by
    unfold extractRevenueAux at h
    split at h
    · cases h
    · split at h
      · cases h
      · cases h
        intro r hr
        rcases List.mem_append.mp hr with h1 | h2
        · exact extractRevenueRow_pos branches idx row _ (by assumption) r h1
        · exact extractRevenueAux_pos branches rest (idx + 1) _ (by assumption) r h2

theorem colIdx_mem :
    ∀ (cols : List String) (b : String) (j : Nat),
      colIdx cols b = some j → b ∈ cols
  | [], _, _, h => by cases h
  | c :: cs, b, j, h => by
    unfold colIdx at h
    split at h
    · have : c = b := by
        next heq => exact eq_of_beq heq
      subst this
      exact List.mem_cons_self c cs
    · obtain ⟨j', hj', -⟩ := Option.map_eq_some'.mp h
      exact List.mem_cons_of_mem c (colIdx_mem cs b j' hj')

theorem extractCostRow_mem (branches cols : List String) (row : List Cell)
    (rs : List CostRecord) (h : extractCostRow branches cols row = .ok rs) :
    ∀ r ∈ rs, r.branch ∈ branches ∧ r.branch ∈ cols := by
  unfold extractCostRow at h
  split at h
  · cases h
  · split at h
    · cases h
      intro r hr
      cases hr
    · split at h
      · cases h
      · cases h
        intro r hr
        obtain ⟨b, hb, hbr⟩ := List.mem_filterMap.mp hr
        revert hbr
        split
        · intro hbr
          cases hbr
        · split
          · intro hbr
            cases hbr
            exact ⟨hb, colIdx_mem cols b _ (by assumption)⟩
          · intro hbr
            cases hbr

theorem extractCostsAux_mem (branches cols : List String) :
    ∀ (rows : List (List Cell)) (res : List CostRecord),
      extractCostsAux branches cols rows = .ok res →
      ∀ r ∈ res, r.branch ∈ branches ∧ r.branch ∈ cols
  | [], res, h => by
    cases h
    intro r hr
    cases hr
  | row :: rest, res, h => by
    unfold extractCostsAux at h
    split at h
    · cases h
    · split at h
      · cases h
      · cases h
        intro r hr
        rcases List.mem_append.mp hr with h1 | h2
        · exact extractCostRow_mem branches cols row _ (by assumption) r h1
        · exact extractCostsAux_mem branches cols rest _ (by assumption) r h2

theorem matchesRev_iff (r : RevRecord) (c : CostRecord) :
    matchesRev r c = true ↔ c.period = r.period ∧ c.branch = r.branch := by
  simp [matchesRev]

theorem filter_find_unique (r : RevRecord) :
    ∀ costs : List CostRecord,
      costs.Pairwise (fun c₁ c₂ => ¬(c₁.period = c₂.period ∧ c₁.branch = c₂.branch)) →
      (costs.filter (matchesRev r) = [] ∧ costs.find? (matchesRev r) = none) ∨
      ∃ c, costs.filter (matchesRev r) = [c] ∧ costs.find? (matchesRev r) = some c
  | [], _ => Or.inl ⟨rfl, rfl⟩
  | c :: cs, hp => by
    obtain ⟨hhead, htail⟩ := List.pairwise_cons.mp hp
    by_cases hm : matchesRev r c = true
    · right
      refine ⟨c, ?_, List.find?_cons_of_pos _ hm⟩
      rw [List.filter_cons_of_pos hm]
      have hnil : cs.filter (matchesRev r) = [] := by
        rw [List.filter_eq_nil_iff]
        intro c' hc' hc'm
        obtain ⟨hp1, hb1⟩ := (matchesRev_iff r c).mp hm
        obtain ⟨hp2, hb2⟩ := (matchesRev_iff r c').mp hc'm
        exact hhead c' hc' ⟨hp1.trans hp2.symm, hb1.trans hb2.symm⟩
      rw [hnil]
    · rw [List.filter_cons_of_neg hm, List.find?_cons_of_neg cs hm]
      exact filter_find_unique r cs htail

theorem extractRevenueRow_ge4 (branches : List String) (i j : Nat)
    (row : List Cell) (hi : 4 ≤ i) (hj : 4 ≤ j) :
    extractRevenueRow branches i row = extractRevenueRow branches j row := by
  have hi' : ¬i < 4 := by omega
  have hj' : ¬j < 4 := by omega
  unfold extractRevenueRow
  rw [if_neg hi', if_neg hj']

theorem extractRevenueAux_ge4 (branches : List String) :
    ∀ (m : List (List Cell)) (i j : Nat), 4 ≤ i → 4 ≤ j →
      extractRevenueAux branches i m = extractRevenueAux branches j m
  | [], _, _, _, _ => rfl
  | row :: rest, i, j, hi, hj => by
    unfold extractRevenueAux
    rw [extractRevenueRow_ge4 branches i j row hi hj,
        extractRevenueAux_ge4 branches rest (i + 1) (j + 1) (by omega) (by omega)]

theorem extractRevenueAux_cons (branches : List String) (idx : Nat)
    (row : List Cell) (rest : List (List Cell)) :
    extractRevenueAux branches idx (row :: rest) =
      match extractRevenueRow branches idx row with
      | .error e => .error e
      | .ok rs =>
        match extractRevenueAux branches (idx + 1) rest with
        | .error e => .error e
        | .ok rest' => .ok (rs ++ rest') := rfl

theorem extractRevenueAux_skip (branches : List String) :
    ∀ (m : List (List Cell)) (i : Nat), i ≤ 4 →
      extractRevenueAux branches i m = extractRevenueAux branches 4 (m.drop (4 - i))
  | [], i, _ => by
    rw [List.drop_nil]
    rfl
  | row :: rest, i, hi => by
    by_cases h4 : i = 4
    · subst h4
      rw [Nat.sub_self, List.drop_zero]
    · have hlt : i < 4 := by omega
      have hrow : extractRevenueRow branches i row = .ok [] := by
        unfold extractRevenueRow
        rw [if_pos hlt]
      have hdrop : (row :: rest).drop (4 - i) = rest.drop (4 - (i + 1)) := by
        have h41 : 4 - i = (4 - (i + 1)) + 1 := by omega
        rw [h41, List.drop_succ_cons]
      rw [hdrop, ← extractRevenueAux_skip branches rest (i + 1) (by omega),
          extractRevenueAux_cons, hrow]
      cases h : extractRevenueAux branches (i + 1) rest <;> simp [h]

theorem foldl_maxStep_isSome :
    ∀ (l : List FileInfo) (g : FileInfo),
      (l.foldl maxStep (some g)).isSome = true
  | [], _ => rfl
  | f :: l, g => by
    rw [List.foldl_cons]
    have hstep : maxStep (some g) f = some (if g.mtime < f.mtime then f else g) := by
      by_cases h : g.mtime < f.mtime
      · simp [maxStep, h]
      · simp [maxStep, h]
    rw [hstep]
    exact foldl_maxStep_isSome l _

theorem maxByMtime_isSome (l : List FileInfo) (h : l ≠ []) :
    (maxByMtime l).isSome = true := by
  cases l with
  | nil => exact absurd rfl h
  | cons f rest =>
    unfold maxByMtime
    rw [List.foldl_cons]
    exact foldl_maxStep_isSome rest f

theorem load_data_ok (branches : List String) (m : List (List Cell))
    (t : CostsTable) (facts : List FactRecord)
    (h : load_data branches m t = .ok facts) :
    ∃ revs cs, extractRevenue branches m = .ok revs ∧
      extractCosts branches t = .ok cs ∧
      facts = sortFacts (reconcile revs cs) := by
  unfold load_data at h
  split at h
  · cases h
  · split at h
    · cases h
    · cases h
      exact ⟨_, _, by assumption, by assumption, rfl⟩

theorem reconcile_cons (r : RevRecord) (rest : List RevRecord)
    (costs : List CostRecord) :
    reconcile (r :: rest) costs =
      ((match costs.filter (matchesRev r) with
        | [] => ([(r, none)] : List (RevRecord × Option ℚ))
        | ms => ms.map (fun (c : CostRecord) => (r, some c.cost))).map
        (fun (rc : RevRecord × Option ℚ) => mkFact rc.1 (rc.2.getD 0)))
        ++ reconcile rest costs := by
  unfold reconcile mergeCosts
  rw [List.flatMap_cons, List.map_append]

/-! Claim C1: period normalization. -/

/-- C1, counterexample: the claim says the loader never raises on a period
label and that the label Period 7 (Apr–Jun) normalizes to the integer 7 by
extracting the first maximal digit run.  On a matrix whose TOTAL row carries
exactly that label, load_data raises ValueError (modelled as the error
carrying the offending text) instead of normalizing or dropping the row,
although the digit-run extraction described by the spec would produce 7. -/
theorem c1_period_label_crashes :
    load_data ["North"] c1Matrix c1Costs = .error "Period 7 (Apr–Jun)" ∧
    specFirstDigitRun "Period 7 (Apr–Jun)" = some 7 :=
  ⟨by with_unfolding_all rfl, by with_unfolding_all rfl⟩

/-- C1, amended: past the four skipped rows, a period cell that is NaN or the
empty string makes the row contribute nothing; on a TOTAL marker row any
other period text that is not an optionally signed digit string makes the
extraction fail with that text as the error — the row is not dropped and no
digit run is extracted. -/
theorem c1_period_drop_or_error (branches : List String) (idx : Nat)
    (row : List Cell) (h4 : 4 ≤ idx) :
    ((row.getD 1 Cell.na).isna = true ∨ row.getD 1 Cell.na = Cell.str "" →
      extractRevenueRow branches idx row = .ok []) ∧
    (∀ s, row.getD 1 Cell.na = Cell.str s → s ≠ "" → pyIntOfString s = none →
      descIsTotal (row.getD 0 Cell.na) = true →
      extractRevenueRow branches idx row = .error s) := by
  have hlt : ¬idx < 4 := by omega
  constructor
  · intro hper
    unfold extractRevenueRow
    rw [if_neg hlt]
    rcases hper with hna | hstr
    · rw [if_pos (by rw [hna]; rfl)]
    · rw [if_pos (by rw [hstr]; rfl)]
  · intro s hs hne hp hd
    unfold extractRevenueRow
    rw [if_neg hlt, hs]
    have hcond : ¬(((Cell.str s).isna || (Cell.str s == Cell.str "")) = true) := by
      simp [Cell.isna, hne]
    rw [if_neg hcond, if_pos hd]
    simp [pyInt, hp]

/-- C1, witness: the amended claim applied at row index 4 with a TOTAL
marker and the period text N/A, which the extraction turns into an error. -/
theorem c1_period_drop_or_error_w :
    extractRevenueRow ["North"] 4 [Cell.str "TOTAL", Cell.str "N/A"] =
      .error "N/A" :=
  (c1_period_drop_or_error ["North"] 4 [Cell.str "TOTAL", Cell.str "N/A"]
      (by omega)).2 "N/A" rfl (by decide) (by with_unfolding_all rfl)
    (by with_unfolding_all rfl)

/-! Claim C2: Hours and RevPerHour. -/

/-- C2, counterexample: the claim says every fact record carries an Hours
field and a derived RevPerHour field; the fact table load_data builds has
neither column. -/
theorem c2_no_hours_field :
    "Hours" ∉ factTableColumns ∧ "RevPerHour" ∉ factTableColumns := by
  decide

/-- C2, amended: the loader reads no hours section at all, so the produced
records carry neither an Hours nor a RevPerHour column; the only derived
per-record metrics are GrossProfit, equal to Revenue minus Cost, and
MarginPct, the rounded percentage of GrossProfit over Revenue. -/
theorem c2_derived_metrics (branches : List String) (m : List (List Cell))
    (t : CostsTable) (facts : List FactRecord)
    (h : load_data branches m t = .ok facts) :
    ∀ r ∈ facts,
      r.grossProfit = r.revenue - r.cost ∧
      r.marginPct = round1 (r.grossProfit / r.revenue * 100) ∧
      "Hours" ∉ factTableColumns ∧ "RevPerHour" ∉ factTableColumns := by
  obtain ⟨revs, cs, hrev, hcs, rfl⟩ := load_data_ok branches m t facts h
  intro r hr
  have hr' := (mem_sortFacts r _).mp hr
  obtain ⟨x, hx, rfl⟩ := mem_reconcile _ _ r hr'
  exact ⟨rfl, rfl, by decide, by decide⟩

/-- C2, witness: the amended claim applied to the single record produced by
load_data on the demo inputs. -/
theorem c2_derived_metrics_w :
    demoFact.grossProfit = demoFact.revenue - demoFact.cost ∧
    demoFact.marginPct = round1 (demoFact.grossProfit / demoFact.revenue * 100) ∧
    "Hours" ∉ factTableColumns ∧ "RevPerHour" ∉ factTableColumns :=
  c2_derived_metrics ["North"] demoMatrix demoCosts [demoFact]
    (by with_unfolding_all rfl) demoFact (List.mem_singleton.mpr rfl)

/-! Claim C7: revenue positive, cost nonnegative. -/

/-- C7, counterexample: the claim says Cost is never negative; with a cost
cell of minus 5 the produced record carries cost minus 5, because the cost
extraction accepts every numeric cell without a sign check. -/
theorem c7_negative_cost :
    load_data ["North"] demoMatrix c7Costs = .ok [c7rec] ∧ c7rec.cost < 0 :=
  ⟨by with_unfolding_all rfl, by with_unfolding_all decide⟩

/-- C7, amended: the revenue half of the claim holds — every record of a
successfully loaded fact table has strictly positive revenue, because a
revenue cell contributes only when its numeric coercion succeeds with a
strictly positive value.  Cost carries no such guarantee. -/
theorem c7_revenue_positive (branches : List String) (m : List (List Cell))
    (t : CostsTable) (facts : List FactRecord)
    (h : load_data branches m t = .ok facts) :
    ∀ r ∈ facts, 0 < r.revenue := by
  obtain ⟨revs, cs, hrev, hcs, rfl⟩ := load_data_ok branches m t facts h
  intro r hr
  have hr' := (mem_sortFacts r _).mp hr
  obtain ⟨x, hx, rfl⟩ := mem_reconcile _ _ r hr'
  exact extractRevenueAux_pos branches m 0 revs hrev x.1
    (mergeCosts_fst_mem _ _ x hx)

/-- C7, witness: the amended claim applied to the record produced by
load_data on the demo inputs. -/
theorem c7_revenue_positive_w : 0 < demoFact.revenue :=
  c7_revenue_positive ["North"] demoMatrix demoCosts [demoFact]
    (by with_unfolding_all rfl) demoFact (List.mem_singleton.mpr rfl)

/-! Claim C3: branch Margin % formula. -/

/-- C3, counterexample: the claim says branch aggregation computes Margin %
as the plain mean of the per-period margins.  On a branch with margins 10
and 100 over revenues 100 and 10, branch_totals reports 18.2 (the rounded
ratio of summed profit 20 to summed revenue 110), while the mean of the
margins is 55. -/
theorem c3_margin_not_mean :
    (branch_totals c3facts).map (fun a => a.marginPct) = [91/5] ∧
    branchMeanMargin c3facts "A" = 55 ∧ ((91 : ℚ)/5) ≠ 55 :=
  ⟨by with_unfolding_all rfl, by with_unfolding_all rfl, by norm_num⟩

/-- C3, amended: branch_totals computes each branch Margin % as the rounded
ratio of that branch's summed GrossProfit to its summed Revenue, not as the
mean of the per-period margins; the mean formula lives only in the report
generator's executive-summary and risk aggregations. -/
theorem c3_branch_margin_from_sums (facts : List FactRecord)
    (a : BranchAggregate) (h : a ∈ branch_totals facts) :
    a.marginPct = round1 (a.grossProfit / a.revenue * 100) ∧
    a.revenue =
      ((facts.filter (fun r => r.branch == a.branch)).map (·.revenue)).sum ∧
    a.grossProfit =
      ((facts.filter (fun r => r.branch == a.branch)).map (·.grossProfit)).sum := by
  unfold branch_totals at h
  obtain ⟨b, -, rfl⟩ := List.mem_map.mp h
  exact ⟨rfl, rfl, rfl⟩

/-- C3, witness: the amended claim applied to the aggregate branch_totals
produces from c3facts. -/
theorem c3_branch_margin_from_sums_w :
    c3agg.marginPct = round1 (c3agg.grossProfit / c3agg.revenue * 100) ∧
    c3agg.revenue =
      ((c3facts.filter (fun r => r.branch == c3agg.branch)).map (·.revenue)).sum ∧
    c3agg.grossProfit =
      ((c3facts.filter (fun r => r.branch == c3agg.branch)).map (·.grossProfit)).sum :=
  c3_branch_margin_from_sums c3facts c3agg (by with_unfolding_all decide)

/-! Claim C4: source locator priority. -/

/-- C4, counterexample: the claim says a match found in an earlier-priority
directory is never overridden by a later directory.  With a revenue match in
the first directory but the only costs match in the second, the locator
keeps scanning and answers with the second directory's revenue file, while
the first-matching-directory rule of the spec answers with the first
directory's file. -/
theorem c4_priority_overridden :
    (get_latest_files c4dirs).1 = some c4b ∧
    specFirstDirRev c4dirs = some c4a ∧ c4b ≠ c4a :=
  ⟨by with_unfolding_all rfl, by with_unfolding_all rfl, by decide⟩

/-- C4, amended: the locator stops at a directory only once both patterns
have matched, so the first-matching-directory rule holds exactly when the
directory that first matches anything matches both patterns: after any
run of directories that are absent or empty of matches, a present directory
holding matches for both patterns answers with its two latest files. -/
theorem c4_first_dir_with_both :
    ∀ (pre : List SearchDir) (d : SearchDir) (post : List SearchDir),
      (∀ d' ∈ pre, d'.present = false ∨
        (d'.revMatches = [] ∧ d'.costMatches = [])) →
      d.present = true → d.revMatches ≠ [] → d.costMatches ≠ [] →
      get_latest_files (pre ++ d :: post) =
        (maxByMtime d.revMatches, maxByMtime d.costMatches)
  | [], d, post, _, hp, hr, hc => by
    obtain ⟨f, hf⟩ := Option.isSome_iff_exists.mp (maxByMtime_isSome _ hr)
    obtain ⟨g, hg⟩ := Option.isSome_iff_exists.mp (maxByMtime_isSome _ hc)
    show locateAux (d :: post) none none = _
    unfold locateAux
    rw [if_pos hp, hf, hg]
    simp
  | d' :: pre, d, post, hpre, hp, hr, hc => by
    have ih := c4_first_dir_with_both pre d post
      (fun x hx => hpre x (List.mem_cons_of_mem d' hx)) hp hr hc
    have hd' := hpre d' (List.mem_cons_self d' pre)
    show locateAux (d' :: (pre ++ d :: post)) none none = _
    unfold locateAux
    rcases hd' with hnp | ⟨hre, hce⟩
    · rw [if_neg (by simp [hnp])]
      exact ih
    · by_cases hb : d'.present = true
      · rw [if_pos hb, hre, hce]
        simpa [maxByMtime] using ih
      · rw [if_neg hb]
        exact ih

/-- C4, witness: the amended claim applied to a single directory holding
matches for both patterns. -/
theorem c4_first_dir_with_both_w :
    get_latest_files ([] ++ c4dBoth :: []) =
      (maxByMtime c4dBoth.revMatches, maxByMtime c4dBoth.costMatches) :=
  c4_first_dir_with_both [] c4dBoth [] (by simp) rfl (by decide) (by decide)

/-! Claim C5: missing branch column. -/

/-- C5, counterexample: the claim says a configured branch absent from the
cost table columns is a fatal SchemaMismatch.  With branches North and South
configured and a table carrying only the North column, the extraction
succeeds and silently produces only the North record. -/
theorem c5_missing_branch_no_error :
    extractCosts ["North", "South"] c5table = .ok [c5rec] ∧
    "South" ∉ c5table.columns :=
  ⟨by with_unfolding_all rfl, by with_unfolding_all decide⟩

/-- C5, amended: no schema check exists; a configured branch that is not
among the table columns simply contributes no cost rows, so every extracted
record belongs to a configured branch that is present among the columns. -/
theorem c5_missing_branch_skipped (branches : List String) (t : CostsTable)
    (res : List CostRecord) (h : extractCosts branches t = .ok res) :
    ∀ r ∈ res, r.branch ∈ branches ∧ r.branch ∈ t.columns :=
  extractCostsAux_mem branches t.columns t.rows res h

/-- C5, witness: the amended claim applied to the record extracted from
c5table. -/
theorem c5_missing_branch_skipped_w :
    c5rec.branch ∈ ["North", "South"] ∧ c5rec.branch ∈ c5table.columns :=
  c5_missing_branch_skipped ["North", "South"] c5table [c5rec]
    (by with_unfolding_all rfl) c5rec (List.mem_singleton.mpr rfl)

/-! Claim C6: left join multiplicity. -/

/-- C6, counterexample: the claim says each revenue-side (Period, Branch)
pair appears exactly once in the final table.  With two cost rows sharing
the pair (1, North), the single revenue row for that pair appears twice in
the reconciled table. -/
theorem c6_duplicate_cost_duplicates_row :
    ((reconcile c6revs c6costs).filter
        (fun r => r.period == "1" && r.branch == "North")).length = 2 ∧
    (c6revs.filter
        (fun r => r.period == "1" && r.branch == "North")).length = 1 :=
  ⟨by with_unfolding_all rfl, by with_unfolding_all rfl⟩

/-- C6, amended: when the cost extraction has no duplicate (Period, Branch)
pairs, the left join is exactly one output row per revenue row in order,
with cost taken from the unique matching cost row or defaulted to 0, and
cost rows with no revenue match are discarded. -/
theorem c6_left_join_nodup (revs : List RevRecord) (costs : List CostRecord)
    (h : costs.Pairwise
      (fun c₁ c₂ => ¬(c₁.period = c₂.period ∧ c₁.branch = c₂.branch))) :
    reconcile revs costs =
      revs.map (fun r =>
        mkFact r (((costs.find? (matchesRev r)).map CostRecord.cost).getD 0)) := by
  induction revs with
  | nil => rfl
  | cons r rest ih =>
    rw [reconcile_cons, List.map_cons, ih]
    rcases filter_find_unique r costs h with ⟨hf, hn⟩ | ⟨c, hf, hn⟩
    · rw [hf, hn]
      simp
    · rw [hf, hn]
      simp

/-- C6, witness: the amended claim applied to one revenue row and two cost
rows with distinct pairs. -/
theorem c6_left_join_nodup_w :
    reconcile c6revs c6wcosts =
      c6revs.map (fun r =>
        mkFact r (((c6wcosts.find? (matchesRev r)).map CostRecord.cost).getD 0)) :=
  c6_left_join_nodup c6revs c6wcosts (by with_unfolding_all decide)

/-! Claim C8: growth at the period boundary. -/

/-- C8, theorem evaluating the code at the failing input: on a fact table
with periods 2 and 10, the period summary orders the groups by string
comparison, so the period 10 row comes first with an undefined growth and
the period 2 row — the first period in ascending integer order, whose growth
the claim requires to be undefined — carries the defined growth value 100
computed against the period 10 total. -/
theorem c8_growth_string_order :
    (period_summary c8facts).map (fun a => (a.period, a.growthPct)) =
      [("10", none), ("2", some 100)] := by
  with_unfolding_all decide

/-! Claim C9: volatility rule. -/

/-- C9, counterexample: the claim says a branch is flagged exactly when the
population standard deviation of its margins exceeds 5.  For margins 0 and 8
the population standard deviation is 4, below the threshold, yet the code
flags the branch because pandas std divides by count minus one, giving
standard deviation 8 over the square root of 2. -/
theorem c9_sample_not_population :
    volatilityFlag c9facts "North" = true ∧
    specVolatilityFlag c9facts "North" = false :=
  ⟨by with_unfolding_all rfl, by with_unfolding_all rfl⟩

/-- C9, amended: the volatility rule flags a branch exactly when it has at
least two records and the sample variance of its margins — the population
variance rescaled by count over count minus one — exceeds 25, the square of
the 5 point threshold. -/
theorem c9_volatility_sample_var (facts : List FactRecord) (b : String) :
    volatilityFlag facts b = true ↔
      2 ≤ (margins facts b).length ∧
      25 < popVar (margins facts b) * ((margins facts b).length : ℚ) /
            (((margins facts b).length : ℚ) - 1) := by
  unfold volatilityFlag sampleVarOpt
  by_cases h2 : 2 ≤ (margins facts b).length
  · rw [if_pos h2]
    show decide (25 <
      ((margins facts b).map (fun x => (x - meanQ (margins facts b)) ^ 2)).sum /
        (((margins facts b).length - 1 : ℕ) : ℚ)) = true ↔ _
    rw [decide_eq_true_eq]
    have hn0 : ((margins facts b).length : ℚ) ≠ 0 := by
      have hpos : 0 < (margins facts b).length := by omega
      exact_mod_cast hpos.ne'
    have hcast : (((margins facts b).length - 1 : ℕ) : ℚ) =
        ((margins facts b).length : ℚ) - 1 := by
      have h1 : 1 ≤ (margins facts b).length := by omega
      rw [Nat.cast_sub h1, Nat.cast_one]
    have hkey : popVar (margins facts b) * ((margins facts b).length : ℚ) /
        (((margins facts b).length : ℚ) - 1) =
        ((margins facts b).map (fun x => (x - meanQ (margins facts b)) ^ 2)).sum /
          (((margins facts b).length - 1 : ℕ) : ℚ) := by
      unfold popVar
      rw [hcast, div_mul_cancel₀ _ hn0]
    rw [hkey]
    exact ⟨fun hlt => ⟨h2, hlt⟩, fun hand => hand.2⟩
  · rw [if_neg h2]
    show false = true ↔ _
    simp [h2]

/-! Claim C10: the first four rows are skipped. -/

/-- C10: the revenue extraction of load_data unconditionally skips the first
four rows of the matrix, so the loaded table depends only on the matrix from
row 4 on — two matrices equal from row 4 on load identically, whatever the
first four rows contain. -/
theorem c10_first_four_rows_ignored (branches : List String)
    (m₁ m₂ : List (List Cell)) (t : CostsTable) (h : m₁.drop 4 = m₂.drop 4) :
    load_data branches m₁ t = load_data branches m₂ t := by
  have e : extractRevenue branches m₁ = extractRevenue branches m₂ := by
    unfold extractRevenue
    rw [extractRevenueAux_skip branches m₁ 0 (by omega),
        extractRevenueAux_skip branches m₂ 0 (by omega)]
    simp only [Nat.sub_zero]
    rw [h]
  unfold load_data
  rw [e]

/-- C10, witness: a one-row matrix whose row 0 is a fully valid TOTAL row
loads exactly like the empty matrix. -/
theorem c10_first_four_rows_ignored_w :
    c10M1.drop 4 = c10M2.drop 4 ∧
    load_data ["North"] c10M1 demoCosts = load_data ["North"] c10M2 demoCosts :=
  ⟨by with_unfolding_all rfl,
   c10_first_four_rows_ignored ["North"] c10M1 c10M2 demoCosts
     (by with_unfolding_all rfl)⟩

end Dashboard


